import Mathlib

/-!
Verification of the saberdb persistence core.

The development shallowly embeds the synchronous database handle
(src/core/db.rs, SaberDBSync), the adapter contract
(src/adapters/mod.rs, AdapterSync), the in-memory adapter
(src/adapters/memory.rs, MemorySync) and the file-backed adapter
(src/adapters/json_file.rs, JsonFileSync).  Rust interior state is made
explicit: every adapter operation is a function from a backend state to
a result together with the successor state.  The asynchronous variants
(SaberDB, Memory, JsonFile) are line-for-line mirrors of the
synchronous ones, differing only in lock acquisition and await points;
their sequential behaviour is the same state-passing semantics, so the
theorems below speak for both execution modes.
-/

/-- Error kinds of the underlying filesystem, mirroring std::io::ErrorKind
as used by the adapter (only NotFound is inspected; every other kind is
collapsed into a numbered code). -/
inductive IoErrorKind where
  | notFound
  | other (code : Nat)
deriving DecidableEq

/-- A filesystem error, mirroring std::io::Error restricted to its kind. -/
structure IoError where
  kind : IoErrorKind
deriving DecidableEq

/-- A codec (serde_json) error, abstracted to a message. -/
structure SerError where
  msg : String
deriving DecidableEq

/-- SaberError from src/core/error.rs: Io, Serialization and Adapter kinds. -/
inductive SaberError where
  | Io (e : IoError)
  | Serialization (e : SerError)
  | Adapter (msg : String)
deriving DecidableEq

/-- The AdapterSync trait from src/adapters/mod.rs, as a record of
state-passing operations over a backend state type sigma.  read returns
an optional payload (none means the backend was never written); write
persists a value.  Both return the successor backend state, so that
adapters with interior mutability are representable. -/
structure AdapterSync (σ T : Type) where
  read : σ → Except SaberError (Option T) × σ
  write : T → σ → Except SaberError Unit × σ

/-- SaberDBSync from src/core/db.rs: the handle owns one in-memory value.
The adapter reference and the backend state are passed explicitly to
each operation. -/
structure SaberDBSync (T : Type) where
  data : T
deriving DecidableEq

/-- SaberDBSync::new - ask the adapter to read; an existing payload becomes
the initial value, otherwise the caller-supplied default does.  An
adapter read error is propagated.  Nothing is written. -/
def SaberDBSync.new {σ T : Type} (A : AdapterSync σ T) (s : σ) (default : T) :
    Except SaberError (SaberDBSync T) × σ :=
  match A.read s with
  | (.ok (some d), s1) => (.ok ⟨d⟩, s1)
  | (.ok none, s1) => (.ok ⟨default⟩, s1)
  | (.error e, s1) => (.error e, s1)

/-- SaberDBSync::write - pass a read view of the current value to the
adapter; the in-memory value is not touched and the adapter result is
returned as is. -/
def SaberDBSync.write {σ T : Type} (db : SaberDBSync T) (A : AdapterSync σ T) (s : σ) :
    Except SaberError Unit × σ :=
  A.write db.data s

/-- SaberDBSync::update - apply the mutator to the in-memory value, then
call write.  The result carries the write outcome, the mutated handle
and the successor backend state; the mutation is kept even when the
write fails. -/
def SaberDBSync.update {σ T : Type} (db : SaberDBSync T) (f : T → T)
    (A : AdapterSync σ T) (s : σ) :
    Except SaberError Unit × SaberDBSync T × σ :=
  let db2 : SaberDBSync T := ⟨f db.data⟩
  ((db2.write A s).1, db2, (db2.write A s).2)

/-- MemorySync from src/adapters/memory.rs: the backend state is the shared
Arc RwLock slot, an optional value.  read returns a clone of the slot and
leaves it unchanged; write replaces the slot with a clone of the value
and always succeeds. -/
def MemorySync (T : Type) : AdapterSync (Option T) T where
  read := fun s => (.ok s, s)
  write := fun v _ => (.ok (), some v)

/-- The Clone impl of MemorySync clones the Arc, so a cloned adapter
denotes the very same operations over the very same shared slot: in this
embedding a clone is the identical adapter value, threaded through the
identical backend state. -/
def MemorySync.clone (T : Type) : AdapterSync (Option T) T := MemorySync T

/-- A filesystem path, modelling std::path::PathBuf restricted to what the
adapter uses: a stem and an optional extension (Path::with_extension
replaces the extension after the last dot of the file name). -/
structure FsPath where
  stem : String
  ext : Option String
deriving DecidableEq

/-- Path::with_extension - replace (never append to) the extension. -/
def FsPath.withExtension (p : FsPath) (e : String) : FsPath :=
  ⟨p.stem, some e⟩

/-- Persisted payload bytes, as a list of characters. -/
abbrev Bytes := List Char

/-- The filesystem: a map from paths to file contents. -/
abbrev FS := FsPath → Option Bytes

/-- Fault injection for the filesystem primitives: each field, when set,
makes the corresponding primitive fail with an io error of kind
other code.  A missing file is reported by the filesystem itself with
kind notFound and is not injectable. -/
structure FsEnv where
  readFault : Option Nat
  writeFault : Option Nat
  renameFault : Option Nat
deriving DecidableEq

/-- fs::read - the whole contents of the file at p, a NotFound error when
the path does not exist, or an injected error of another kind. -/
def fsReadPrim (env : FsEnv) (fs : FS) (p : FsPath) : Except IoError Bytes :=
  match env.readFault with
  | some c => .error ⟨.other c⟩
  | none =>
    match fs p with
    | some b => .ok b
    | none => .error ⟨.notFound⟩

/-- fs::write - create or truncate the file at p with contents b. -/
def fsWritePrim (env : FsEnv) (fs : FS) (p : FsPath) (b : Bytes) :
    Except IoError Unit × FS :=
  match env.writeFault with
  | some c => (.error ⟨.other c⟩, fs)
  | none => (.ok (), fun q => if q = p then some b else fs q)

/-- fs::rename - atomically move src onto dst, replacing dst.  Renaming a
path onto itself leaves the file in place. -/
def fsRenamePrim (env : FsEnv) (fs : FS) (src dst : FsPath) :
    Except IoError Unit × FS :=
  match env.renameFault with
  | some c => (.error ⟨.other c⟩, fs)
  | none =>
    match fs src with
    | none => (.error ⟨.notFound⟩, fs)
    | some b => (.ok (), fun q => if q = dst then some b else if q = src then none else fs q)

/-- JsonFileSync::read from src/adapters/json_file.rs: read the target
path; decode on success; a NotFound error becomes the distinguished
success value none; any other error is wrapped as Io; a decode failure
is wrapped as Serialization.  The decoder (serde_json::from_slice) is an
external collaborator and is a parameter. -/
def jsonFileRead {T : Type} (decode : Bytes → Except SerError T)
    (path : FsPath) (env : FsEnv) (fs : FS) : Except SaberError (Option T) :=
  match fsReadPrim env fs path with
  | .ok bytes =>
    match decode bytes with
    | .ok d => .ok (some d)
    | .error e => .error (.Serialization e)
  | .error e => if e.kind = .notFound then .ok none else .error (.Io e)

/-- JsonFileSync::write from src/adapters/json_file.rs: encode the value
(pretty), write the payload to the temporary path obtained by
with_extension tmp, then rename the temporary path onto the target.  The
encoder (serde_json::to_vec_pretty) is an external collaborator and is a
parameter. -/
def jsonFileWrite {T : Type} (encode : T → Except SerError Bytes)
    (path : FsPath) (env : FsEnv) (v : T) (fs : FS) :
    Except SaberError Unit × FS :=
  match encode v with
  | .error e => (.error (.Serialization e), fs)
  | .ok json =>
    match fsWritePrim env fs (path.withExtension "tmp") json with
    | (.error e, fs1) => (.error (.Io e), fs1)
    | (.ok _, fs1) =>
      match fsRenamePrim env fs1 (path.withExtension "tmp") path with
      | (.error e, fs2) => (.error (.Io e), fs2)
      | (.ok _, fs2) => (.ok (), fs2)

/-- The JsonFileSync adapter packaged against the AdapterSync contract:
backend state is the filesystem; the path, fault environment and codec
are fixed at construction. -/
def JsonFileSync {T : Type} (decode : Bytes → Except SerError T)
    (encode : T → Except SerError Bytes) (path : FsPath) (env : FsEnv) :
    AdapterSync FS T where
  read := fun fs => (jsonFileRead decode path env fs, fs)
  write := fun v fs => jsonFileWrite encode path env v fs

/-- Opening brace character. -/
def lbrace : Char := Char.ofNat 123

/-- Closing brace character. -/
def rbrace : Char := Char.ofNat 125

/-- A JSON document, the concrete Value shape for claims about the codec. -/
inductive Json where
  | null
  | bool (b : Bool)
  | num (n : Int)
  | str (s : String)
  | arr (items : List Json)
  | obj (fields : List (String × Json))

/-- Two spaces of indentation per nesting level. -/
def indentChars : Nat → List Char
  | 0 => []
  | n + 1 => ' ' :: ' ' :: indentChars n

mutual

/-- Modelled from the spec: serde_json::to_vec_pretty, the external codec
collaborator (section 6: canonical pretty-printed textual encoding).
Pretty printing at nesting depth d: atoms print inline; a non-empty array
or object opens its bracket, breaks the line, and indents each member by
two spaces per level, closing the bracket on its own line at the outer
level.  String escaping is not modelled. -/
def prettyJson (d : Nat) : Json → List Char
  | .null => String.data "null"
  | .bool true => String.data "true"
  | .bool false => String.data "false"
  | .num n => String.data (toString n)
  | .str s => '"' :: (s.data ++ ['"'])
  | .arr [] => ['[', ']']
  | .arr (x :: xs) =>
      '[' :: '\n' :: (indentChars (d + 1) ++ prettyJson (d + 1) x ++ prettyArrRest (d + 1) xs
        ++ '\n' :: (indentChars d ++ [']']))
  | .obj [] => [lbrace, rbrace]
  | .obj (f :: fl) =>
      lbrace :: '\n' :: (indentChars (d + 1) ++ prettyPair (d + 1) f ++ prettyObjRest (d + 1) fl
        ++ '\n' :: (indentChars d ++ [rbrace]))

/-- One key-value member: quoted key, colon, space, value. -/
def prettyPair (d : Nat) : String × Json → List Char
  | (k, v) => '"' :: (k.data ++ '"' :: ':' :: ' ' :: prettyJson d v)

/-- Remaining array items, each on its own indented line after a comma. -/
def prettyArrRest (d : Nat) : List Json → List Char
  | [] => []
  | x :: xs => ',' :: '\n' :: (indentChars d ++ prettyJson d x ++ prettyArrRest d xs)

/-- Remaining object members, each on its own indented line after a comma. -/
def prettyObjRest (d : Nat) : List (String × Json) → List Char
  | [] => []
  | f :: fl => ',' :: '\n' :: (indentChars d ++ prettyPair d f ++ prettyObjRest d fl)

end

/-- Modelled from the spec: the encode half of the codec boundary for Json
values; serde_json::to_vec_pretty never fails on a plain Json document. -/
def to_vec_pretty (v : Json) : Except SerError Bytes :=
  .ok (prettyJson 0 v)

/-- Claim C1: for every encodable value v (the data of any handle) and
every in-memory adapter state, calling write and then constructing a
fresh handle with any default against the resulting adapter state yields
an in-memory value equal to v. -/
theorem memory_roundtrip (T : Type) (db : SaberDBSync T) (s : Option T) (d : T) :
    SaberDBSync.new (MemorySync T) (db.write (MemorySync T) s).2 d
      = (.ok ⟨db.data⟩, some db.data) := rfl

/-- Claim C3: after update f returns, the handle holds f applied to the
value held before the call, unconditionally - in particular a failed
write never rolls the in-memory value back. -/
theorem update_no_rollback (T σ : Type) (A : AdapterSync σ T)
    (db : SaberDBSync T) (f : T → T) (s : σ) :
    (db.update f A s).2.1 = SaberDBSync.mk (f db.data) := rfl

/-- Claim C7: the handle write operation only passes a read view of the
current value to the adapter and returns exactly the adapter result
(the handle itself is immutable through write, which borrows it
read-only); against the in-memory adapter this is success together with
the slot now holding the current value. -/
theorem write_surfaces_adapter_result (T σ : Type) (A : AdapterSync σ T)
    (db : SaberDBSync T) (s : σ) :
    db.write A s = A.write db.data s
    ∧ ∀ s2 : Option T, db.write (MemorySync T) s2 = (.ok (), some db.data) :=
  ⟨rfl, fun _ => rfl⟩

/-- Claim C8: two handles built from clones of one in-memory adapter share
a single slot: after handle A (holding v) writes, a read through the
cloned adapter of handle B sees v, and a fresh handle constructed from
that clone with any default also loads v - all without any filesystem
state involved. -/
theorem memory_shared_slot (T : Type) (v d : T) (s : Option T) :
    ((SaberDBSync.mk v).write (MemorySync T) s).2 = some v
    ∧ (MemorySync.clone T).read ((SaberDBSync.mk v).write (MemorySync T) s).2
        = (.ok (some v), some v)
    ∧ SaberDBSync.new (MemorySync.clone T) ((SaberDBSync.mk v).write (MemorySync T) s).2 d
        = (.ok ⟨v⟩, some v) :=
  ⟨rfl, rfl, rfl⟩

/-- Claim C2: for every mutator f and every adapter whose successful write
is observed by a subsequent read (the adapter invariant of the spec,
satisfied by both reference adapters), if update f reports success then
the backend already holds the post-mutation value: a fresh handle
constructed against the resulting backend state observes f applied to
the previous in-memory value. -/
theorem update_commits (T σ : Type) (A : AdapterSync σ T) (db : SaberDBSync T)
    (f : T → T) (s : σ) (d : T)
    (hA : ∀ v s0 s1, A.write v s0 = (.ok (), s1) → A.read s1 = (.ok (some v), s1))
    (hok : (db.update f A s).1 = .ok ()) :
    SaberDBSync.new A (db.update f A s).2.2 d
      = (.ok ⟨f db.data⟩, (db.update f A s).2.2) := by
  have hw : A.write (f db.data) s
      = ((A.write (f db.data) s).1, (A.write (f db.data) s).2) := rfl
  have hok2 : (A.write (f db.data) s).1 = .ok () := hok
  rw [hok2] at hw
  have hread := hA (f db.data) s (A.write (f db.data) s).2 hw
  show SaberDBSync.new A (A.write (f db.data) s).2 d
      = (.ok ⟨f db.data⟩, (A.write (f db.data) s).2)
  rw [SaberDBSync.new, hread]

/-- Witness for update_commits: the in-memory adapter satisfies the
read-after-write invariant, a handle holding 0 updated by adding 100
reports success, and the fresh handle loads 100. -/
theorem update_commits_witness :
    SaberDBSync.new (MemorySync Nat)
        ((SaberDBSync.mk 0).update (fun n => n + 100) (MemorySync Nat) none).2.2 7
      = (.ok ⟨100⟩, some 100) :=
  update_commits Nat (Option Nat) (MemorySync Nat) ⟨0⟩ (fun n => n + 100) none 7
    (fun v _ s1 h => by
      have h2 : some v = s1 := congrArg Prod.snd h
      rw [← h2]
      rfl)
    rfl

/-- Claim C4: constructing a handle against a backend with no payload
succeeds with exactly the caller default and performs no adapter write
(the backend state is returned unchanged, still empty): shown for both
the empty in-memory adapter and the file adapter on a missing target
path; and a handle construction surfaces any adapter read error
unchanged. -/
theorem new_default_on_missing (T : Type) (d : T)
    (decode : Bytes → Except SerError T) (encode : T → Except SerError Bytes)
    (path : FsPath) (fs : FS) (env : FsEnv)
    (hmiss : fs path = none) (hfault : env.readFault = none) :
    SaberDBSync.new (MemorySync T) none d = (.ok ⟨d⟩, none)
    ∧ SaberDBSync.new (JsonFileSync decode encode path env) fs d = (.ok ⟨d⟩, fs)
    ∧ ∀ (σ : Type) (A : AdapterSync σ T) (s s2 : σ) (e : SaberError),
        A.read s = (.error e, s2) → SaberDBSync.new A s d = (.error e, s2) := by
  refine ⟨rfl, ?_, ?_⟩
  · rw [SaberDBSync.new]
    have hr : (JsonFileSync decode encode path env).read fs = (.ok none, fs) := by
      show (jsonFileRead decode path env fs, fs) = (.ok none, fs)
      rw [jsonFileRead, fsReadPrim, hfault, hmiss]
      rfl
    rw [hr]
  · intro σ A s s2 e h
    rw [SaberDBSync.new, h]

/-- Witness for new_default_on_missing at a concrete instantiation: the
empty filesystem, a json target path and the fault-free environment. -/
theorem new_default_on_missing_witness :
    SaberDBSync.new (MemorySync Nat) none 5 = (.ok ⟨5⟩, none)
    ∧ SaberDBSync.new
        (JsonFileSync (fun _ => .error ⟨"bad"⟩) (fun n => .ok (toString n).data)
          ⟨"db", some "json"⟩ ⟨none, none, none⟩)
        (fun _ => none) 5
      = (.ok ⟨5⟩, fun _ => none)
    ∧ ∀ (σ : Type) (A : AdapterSync σ Nat) (s s2 : σ) (e : SaberError),
        A.read s = (.error e, s2) → SaberDBSync.new A s 5 = (.error e, s2) :=
  new_default_on_missing Nat 5 (fun _ => .error ⟨"bad"⟩) (fun n => .ok (toString n).data)
    ⟨"db", some "json"⟩ (fun _ => none) ⟨none, none, none⟩ rfl rfl

/-- Claim C6: without an injected fault, the file adapter read returns the
distinguished success value none exactly when the target path does not
exist; an io failure of any other kind is returned as an Io error; a
decode failure of existing bytes is returned as a Serialization error;
and a successful read of existing bytes returns the decoded value. -/
theorem file_read_classification (T : Type) (decode : Bytes → Except SerError T)
    (path : FsPath) (env : FsEnv) (fs : FS) :
    (env.readFault = none →
      (jsonFileRead decode path env fs = .ok none ↔ fs path = none))
    ∧ (∀ c, env.readFault = some c →
        jsonFileRead decode path env fs = .error (.Io ⟨.other c⟩))
    ∧ (∀ b dv, env.readFault = none → fs path = some b → decode b = .ok dv →
        jsonFileRead decode path env fs = .ok (some dv))
    ∧ (∀ b e, env.readFault = none → fs path = some b → decode b = .error e →
        jsonFileRead decode path env fs = .error (.Serialization e)) := by
  refine ⟨?_, ?_, ?_, ?_⟩
  · intro hf
    constructor
    · intro h
      cases hp : fs path with
      | none => rfl
      | some b =>
        rw [jsonFileRead, fsReadPrim, hf, hp] at h
        have h2 : (match decode b with
            | .ok dv => Except.ok (some dv)
            | .error e => Except.error (SaberError.Serialization e))
            = Except.ok (none : Option T) := h
        cases hd : decode b with
        | ok dv => rw [hd] at h2; exact absurd h2 (by simp)
        | error e => rw [hd] at h2; exact absurd h2 (by simp)
    · intro hp
      rw [jsonFileRead, fsReadPrim, hf, hp]
      rfl
  · intro c hf
    rw [jsonFileRead, fsReadPrim, hf]
    rfl
  · intro b dv hf hp hd
    rw [jsonFileRead, fsReadPrim, hf, hp]
    show (match decode b with
      | .ok d => Except.ok (some d)
      | .error e => Except.error (SaberError.Serialization e)) = .ok (some dv)
    rw [hd]
  · intro b e hf hp hd
    rw [jsonFileRead, fsReadPrim, hf, hp]
    show (match decode b with
      | .ok d => Except.ok (some d)
      | .error e2 => Except.error (SaberError.Serialization e2)) = .error (.Serialization e)
    rw [hd]

/-- Witness for file_read_classification at a concrete instantiation: a
one-file filesystem whose payload decodes to 7. -/
theorem file_read_classification_witness :
    jsonFileRead (fun b => if b = ['7'] then .ok 7 else .error ⟨"bad"⟩)
        ⟨"db", some "json"⟩ ⟨none, none, none⟩
        (fun q => if q = ⟨"db", some "json"⟩ then some ['7'] else none)
      = .ok (some 7) :=
  (file_read_classification Nat (fun b => if b = ['7'] then .ok 7 else .error ⟨"bad"⟩)
      ⟨"db", some "json"⟩ ⟨none, none, none⟩
      (fun q => if q = ⟨"db", some "json"⟩ then some ['7'] else none)).2.2.1
    ['7'] 7 rfl (by simp) (by simp)

/-- Claim C10: the temporary path is obtained by replacing the target
extension with tmp, never by appending a suffix; hence a target whose
extension is already tmp is its own temporary path, and two targets
differing only in their extension share one temporary path. -/
theorem temp_path_spec (p q : FsPath) :
    p.withExtension "tmp" = FsPath.mk p.stem (some "tmp")
    ∧ (p.ext = some "tmp" → p.withExtension "tmp" = p)
    ∧ (p.stem = q.stem → p.withExtension "tmp" = q.withExtension "tmp") := by
  refine ⟨rfl, ?_, ?_⟩
  · intro h
    cases p with
    | mk st ex =>
      rw [FsPath.withExtension]
      exact congrArg (FsPath.mk st) h.symm
  · intro h
    rw [FsPath.withExtension, FsPath.withExtension, h]

/-- Witness for temp_path_spec: db.tmp is its own temporary path, and
db.json and db.yaml share the temporary path db.tmp. -/
theorem temp_path_spec_witness :
    FsPath.withExtension ⟨"db", some "tmp"⟩ "tmp" = (⟨"db", some "tmp"⟩ : FsPath)
    ∧ FsPath.withExtension ⟨"db", some "json"⟩ "tmp"
        = FsPath.withExtension ⟨"db", some "yaml"⟩ "tmp" :=
  ⟨(temp_path_spec ⟨"db", some "tmp"⟩ ⟨"db", some "tmp"⟩).2.1 rfl,
   (temp_path_spec ⟨"db", some "json"⟩ ⟨"db", some "yaml"⟩).2.2 rfl⟩

/-- A target path whose extension is already tmp: it coincides with its
own temporary path. -/
def tmpExtPath : FsPath := ⟨"db", some "tmp"⟩

/-- A one-file filesystem holding a prior payload at tmpExtPath. -/
def tmpExtFs : FS := fun q => if q = tmpExtPath then some ['a'] else none

/-- A fault environment that makes only the rename step fail. -/
def renameFailEnv : FsEnv := ⟨none, none, some 0⟩

/-- A simple encoder used in concrete counterexamples. -/
def natEncode : Nat → Except SerError Bytes := fun n => .ok (toString n).data

/-- Counterexample to claim C5 as stated: on the target db.tmp, whose
temporary path is the target itself, a write of 7 that fails at the
rename step (after the payload was encoded and written to the temporary
path) has already replaced the prior payload of the target: the prior
bytes a are gone and the new bytes 7 are in place even though no rename
succeeded. -/
theorem atomic_write_cex :
    (jsonFileWrite natEncode tmpExtPath renameFailEnv 7 tmpExtFs).1
      = .error (.Io ⟨.other 0⟩)
    ∧ tmpExtFs tmpExtPath = some ['a']
    ∧ (jsonFileWrite natEncode tmpExtPath renameFailEnv 7 tmpExtFs).2 tmpExtPath
      = some ['7'] := by
  refine ⟨rfl, by rw [tmpExtFs]; simp, ?_⟩
  show (fun q => if q = tmpExtPath then some ['7'] else tmpExtFs q) tmpExtPath = some ['7']
  simp

/-- Characterization of jsonFileWrite when the encoder fails: the error is
wrapped as Serialization and the filesystem is untouched. -/
theorem jsonFileWrite_encodeErr {T : Type} (encode : T → Except SerError Bytes)
    (path : FsPath) (env : FsEnv) (v : T) (fs : FS) (e0 : SerError)
    (henc : encode v = .error e0) :
    jsonFileWrite encode path env v fs = (.error (.Serialization e0), fs) := by
  rw [jsonFileWrite, henc]

/-- Characterization of jsonFileWrite when writing the temporary file
fails: the error is wrapped as Io and the filesystem is untouched. -/
theorem jsonFileWrite_writeFault {T : Type} (encode : T → Except SerError Bytes)
    (path : FsPath) (env : FsEnv) (v : T) (fs : FS) (b : Bytes) (c : Nat)
    (henc : encode v = .ok b) (hw : env.writeFault = some c) :
    jsonFileWrite encode path env v fs = (.error (.Io ⟨.other c⟩), fs) := by
  simp only [jsonFileWrite, henc, fsWritePrim, hw]

/-- Characterization of jsonFileWrite when the rename step fails: the
temporary file holds the encoded payload and the error is wrapped. -/
theorem jsonFileWrite_renameFault {T : Type} (encode : T → Except SerError Bytes)
    (path : FsPath) (env : FsEnv) (v : T) (fs : FS) (b : Bytes) (c : Nat)
    (henc : encode v = .ok b) (hw : env.writeFault = none)
    (hr : env.renameFault = some c) :
    jsonFileWrite encode path env v fs
      = (.error (.Io ⟨.other c⟩),
         fun q => if q = path.withExtension "tmp" then some b else fs q) := by
  simp only [jsonFileWrite, henc, fsWritePrim, hw, fsRenamePrim, hr]

/-- Characterization of jsonFileWrite when every step succeeds: the target
holds the encoded payload, the temporary file is consumed by the rename
and every other path is untouched. -/
theorem jsonFileWrite_ok {T : Type} (encode : T → Except SerError Bytes)
    (path : FsPath) (env : FsEnv) (v : T) (fs : FS) (b : Bytes)
    (henc : encode v = .ok b) (hw : env.writeFault = none)
    (hr : env.renameFault = none) :
    jsonFileWrite encode path env v fs
      = (.ok (),
         fun q => if q = path then some b
           else if q = path.withExtension "tmp" then none
           else if q = path.withExtension "tmp" then some b else fs q) := by
  simp only [jsonFileWrite, henc, fsWritePrim, hw, fsRenamePrim, hr]
  simp

/-- Claim C5 amended: for every target path whose extension is not tmp (so
that the temporary path is distinct from the target), a file adapter
write that fails - at encoding, at writing the temporary file, or at the
rename - leaves the prior payload of the target path unchanged; and a
write that succeeds (its rename succeeded) sets the target content to
exactly the encoded payload. -/
theorem atomic_write_preserves_target (T : Type) (encode : T → Except SerError Bytes)
    (path : FsPath) (env : FsEnv) (v : T) (fs : FS)
    (hext : path.ext ≠ some "tmp") :
    (∀ e, (jsonFileWrite encode path env v fs).1 = .error e →
        (jsonFileWrite encode path env v fs).2 path = fs path)
    ∧ (∀ b, encode v = .ok b → (jsonFileWrite encode path env v fs).1 = .ok () →
        (jsonFileWrite encode path env v fs).2 path = some b) := by
  have hne : path ≠ path.withExtension "tmp" := by
    intro h
    apply hext
    cases path with
    | mk st ex =>
      rw [FsPath.withExtension] at h
      injection h with h1 h2
  cases henc : encode v with
  | error e0 =>
    refine ⟨fun e he => ?_, fun b hb hok => ?_⟩
    · rw [jsonFileWrite_encodeErr encode path env v fs e0 henc]
    · exact absurd hb (by simp)
  | ok b0 =>
    cases hw : env.writeFault with
    | some c =>
      refine ⟨fun e he => ?_, fun b hb hok => ?_⟩
      · rw [jsonFileWrite_writeFault encode path env v fs b0 c henc hw]
      · rw [jsonFileWrite_writeFault encode path env v fs b0 c henc hw] at hok
        exact absurd hok (by simp)
    | none =>
      cases hr : env.renameFault with
      | some c =>
        refine ⟨fun e he => ?_, fun b hb hok => ?_⟩
        · rw [jsonFileWrite_renameFault encode path env v fs b0 c henc hw hr]
          show (if path = path.withExtension "tmp" then some b0 else fs path) = fs path
          rw [if_neg hne]
        · rw [jsonFileWrite_renameFault encode path env v fs b0 c henc hw hr] at hok
          exact absurd hok (by simp)
      | none =>
        refine ⟨fun e he => ?_, fun b hb hok => ?_⟩
        · rw [jsonFileWrite_ok encode path env v fs b0 henc hw hr] at he
          exact absurd he (by simp)
        · have hb0 : b = b0 := (Except.ok.inj hb).symm
          rw [jsonFileWrite_ok encode path env v fs b0 henc hw hr, hb0]
          show (if path = path then some b0
            else if path = path.withExtension "tmp" then none
            else if path = path.withExtension "tmp" then some b0 else fs path) = some b0
          rw [if_pos rfl]

/-- Witness for atomic_write_preserves_target: on the target db.json with
a prior payload, a write of 7 whose rename step fails leaves the prior
payload in place. -/
theorem atomic_write_preserves_target_witness :
    (jsonFileWrite natEncode ⟨"db", some "json"⟩ renameFailEnv 7
        (fun q => if q = ⟨"db", some "json"⟩ then some ['a'] else none)).2
      ⟨"db", some "json"⟩
      = (fun q => if q = (⟨"db", some "json"⟩ : FsPath) then some ['a'] else none)
          ⟨"db", some "json"⟩ :=
  (atomic_write_preserves_target Nat natEncode ⟨"db", some "json"⟩ renameFailEnv 7
      (fun q => if q = ⟨"db", some "json"⟩ then some ['a'] else none)
      (by simp)).1
    (.Io ⟨.other 0⟩)
    (by rw [jsonFileWrite_renameFault natEncode ⟨"db", some "json"⟩ renameFailEnv 7
          (fun q => if q = ⟨"db", some "json"⟩ then some ['a'] else none) ['7'] 0 rfl rfl rfl])

/-- Counterexample to claim C9 as stated: the scalar value 5 is
successfully persisted by the file adapter, yet the persisted content is
the single character 5, containing neither a line break nor any
indentation - pretty printing only breaks lines inside non-empty arrays
and objects. -/
theorem pretty_format_cex :
    (jsonFileWrite to_vec_pretty ⟨"db", some "json"⟩ ⟨none, none, none⟩ (Json.num 5)
        (fun _ => none)).1 = .ok ()
    ∧ (jsonFileWrite to_vec_pretty ⟨"db", some "json"⟩ ⟨none, none, none⟩ (Json.num 5)
        (fun _ => none)).2 ⟨"db", some "json"⟩ = some ['5']
    ∧ List.contains ['5'] '\n' = false
    ∧ List.contains ['5'] ' ' = false := by
  have hpre : prettyJson 0 (Json.num 5) = ['5'] := by
    simp [prettyJson]
    rfl
  have henc : to_vec_pretty (Json.num 5) = .ok ['5'] := by
    rw [to_vec_pretty, hpre]
  rw [jsonFileWrite_ok to_vec_pretty ⟨"db", some "json"⟩ ⟨none, none, none⟩ (Json.num 5)
      (fun _ => none) ['5'] henc rfl rfl]
  exact ⟨rfl, by simp, rfl, rfl⟩

/-- Claim C9 amended: every fault-free file adapter write persists exactly
the pretty-printed canonical encoding of the value at the target path,
and whenever the value is a non-empty array or object that encoding
contains a line break followed by two-space indentation; atomic values
(numbers, strings, booleans, null) and empty containers print inline. -/
theorem pretty_persist (path : FsPath) (env : FsEnv) (v : Json) (fs : FS)
    (hw : env.writeFault = none) (hr : env.renameFault = none) :
    (jsonFileWrite to_vec_pretty path env v fs).1 = .ok ()
    ∧ (jsonFileWrite to_vec_pretty path env v fs).2 path = some (prettyJson 0 v)
    ∧ (∀ x xs, v = Json.arr (x :: xs) →
        ∃ r, prettyJson 0 v = '[' :: '\n' :: ' ' :: ' ' :: r)
    ∧ (∀ f fl, v = Json.obj (f :: fl) →
        ∃ r, prettyJson 0 v = lbrace :: '\n' :: ' ' :: ' ' :: r) := by
  rw [jsonFileWrite_ok to_vec_pretty path env v fs (prettyJson 0 v) rfl hw hr]
  refine ⟨rfl, by simp, ?_, ?_⟩
  · intro x xs hv
    subst hv
    simp only [prettyJson, indentChars]
    exact ⟨_, rfl⟩
  · intro f fl hv
    subst hv
    simp only [prettyJson, indentChars]
    exact ⟨_, rfl⟩

/-- Witness for pretty_persist: the one-field object with key a and value
1 written at db.json on the empty filesystem persists its pretty
encoding. -/
theorem pretty_persist_witness :
    (jsonFileWrite to_vec_pretty ⟨"db", some "json"⟩ ⟨none, none, none⟩
        (Json.obj [("a", Json.num 1)]) (fun _ => none)).2 ⟨"db", some "json"⟩
      = some (prettyJson 0 (Json.obj [("a", Json.num 1)])) :=
  (pretty_persist ⟨"db", some "json"⟩ ⟨none, none, none⟩ (Json.obj [("a", Json.num 1)])
      (fun _ => none) rfl rfl).2.1
